import Mathlib

/-!
Verification of the `python_ansible_wrapper` task-tree builder
(`src/python_ansible_wrapper/__init__.py`).

The builder assembles an ordered tree of task descriptors (`Block._tasks`),
flattens it with `Block.get_tasks`, and `Play.run_play` writes the document
and invokes `ansible-playbook` as a subprocess.

Embedding notes:
* YAML-serializable values are modelled by `Val`; a Python dict is an
  insertion-ordered association list `List (String × Val)` (Python dicts
  preserve insertion order).
* An entry of `Block._tasks` is either a plain task dict or a nested
  `Block`; since `Block.get_block` always passes the parent's `_root` to the
  child, the bound root is uniform across the tree and is carried as an
  explicit argument of the constructors rather than inside `Entry`.
* Effectful code (`Play.run_play` / `Play._run_play`) is embedded as an
  event trace (`Ev`), with the temporary-directory scope of the
  `with TemporaryDirectory()` statement made explicit.
-/

namespace AnsibleWrapper

/-- A YAML-serializable value, as produced by the builder methods. -/
inductive Val : Type where
  | str : String → Val
  | bool : Bool → Val
  | int : Int → Val
  | list : List Val → Val
  | dict : List (String × Val) → Val

/-- An entry of `Block._tasks`: a plain task descriptor dict, or a nested
`Block` (its name together with its own `_tasks`). -/
inductive Entry : Type where
  | task : List (String × Val) → Entry
  | block : String → List Entry → Entry

mutual

/-- How `Block.get_tasks` renders one entry: a dict is yielded unchanged, a
nested block becomes `{"name": child name, "block": list(child.get_tasks())}`. -/
def flattenEntry : Entry → List (String × Val)
  | .task d => d
  | .block n ts => [("name", Val.str n), ("block", Val.list (get_tasks ts))]

/-- `Block.get_tasks`, as the list of yielded dicts. -/
def get_tasks : List Entry → List Val
  | [] => []
  | e :: rest => Val.dict (flattenEntry e) :: get_tasks rest

end

/-- One builder call on a block, as far as the operation sequence is
concerned: every task constructor (`apt_present`, `command`, `copy`, ...)
appends one descriptor dict; `get_block` appends one empty child block. -/
inductive Op : Type where
  | appendTask : List (String × Val) → Op
  | openBlock : String → Op

/-- The entry a single builder call appends to `self._tasks`. -/
def opEntry : Op → Entry
  | .appendTask d => .task d
  | .openBlock n => .block n []

/-- Running a sequence of builder calls against a block's task list. -/
def applyOps : List Entry → List Op → List Entry
  | ts, [] => ts
  | ts, op :: rest => applyOps (ts ++ [opEntry op]) rest

/-- What `get_tasks` yields for the entry appended by one builder call. -/
def opFlat : Op → Val
  | .appendTask d => Val.dict d
  | .openBlock n => Val.dict [("name", Val.str n), ("block", Val.list [])]

/-- `Block.get_block`: creates a child block (same bound root), appends it to
the parent's `_tasks` and returns it. The returned child is identified by its
index in the parent's list (the forward reference the caller holds). -/
def get_block (ts : List Entry) (n : String) : List Entry × Nat :=
  (ts ++ [Entry.block n []], ts.length)

/-- Apply `f` to the element at index `i`, leaving the rest unchanged. -/
def modifyIdx : List Entry → Nat → (Entry → Entry) → List Entry
  | [], _, _ => []
  | e :: rest, 0, f => f e :: rest
  | e :: rest, Nat.succ i, f => e :: modifyIdx rest i f

/-- Appending one entry to the child block sitting at index `i` of the
parent's task list: this is what a builder call on the child reference does
to the tree, since the parent holds the very same `Block` object. -/
def appendEntryAt (ts : List Entry) (i : Nat) (e : Entry) : List Entry :=
  modifyIdx ts i (fun x =>
    match x with
    | Entry.block n cs => Entry.block n (cs ++ [e])
    | t => t)

/-- A whole sequence of builder calls on the child reference. -/
def appendAllAt (ts : List Entry) (i : Nat) (es : List Entry) : List Entry :=
  es.foldl (fun acc e => appendEntryAt acc i e) ts

/-- Key lookup in a descriptor dict (first match, like Python dict access). -/
def lookup (d : List (String × Val)) (k : String) : Option Val :=
  (d.find? (fun p => p.1 == k)).map (fun p => p.2)

/-- `Block.command(title, command, chdir=None, become=None)`: builds
`{"name": title, "command": {"argv": ..., ("chdir": ...)}}` and adds
`become`/`become_user` only when `become is not None`. -/
def command (title : String) (cmd : List String) (chdir : Option String)
    (become : Option String) : List (String × Val) :=
  let detail : List (String × Val) :=
    [("argv", Val.list (cmd.map Val.str))]
      ++ (match chdir with
          | some c => [("chdir", Val.str c)]
          | none => [])
  [("name", Val.str title), ("command", Val.dict detail)]
    ++ (match become with
        | some b => [("become", Val.bool true), ("become_user", Val.str b)]
        | none => [])

/-- The `src` argument of `Block.copy`, which is `Union[str, Path]` in the
source: the branch taken depends on `isinstance(src, Path)`. -/
inductive SrcArg : Type where
  | path : String → SrcArg
  | str : String → SrcArg

/-- `pathlib`'s `root / s` for a string right operand `s` (as used in
`str(self._root / src)`): an absolute `s` (leading `/`) replaces the root,
an empty `s` leaves the root unchanged, otherwise the segments are joined
with `/`. -/
def pathJoin (root s : String) : String :=
  if s.data = [] then root
  else if s.data.head? = some '/' then s
  else root ++ "/" ++ s

/-- `os.path.basename`: the part after the last `/` (the whole string when
it has no `/`). -/
def basename (s : String) : String :=
  String.mk ((s.data.reverse.takeWhile (fun c => c != '/')).reverse)

/-- Python truthiness of the `src` argument, used by the default-title
expression `... if src else ...`: `None` and the empty string are falsy; a
`Path` is always truthy (`Path("")` is `PosixPath(".")`). -/
def srcTruthy : Option SrcArg → Bool
  | none => false
  | some (SrcArg.str s) => !(s == "")
  | some (SrcArg.path _) => true

/-- The raw text of the `src` argument as seen by `basename`. -/
def srcRaw : Option SrcArg → String
  | none => ""
  | some (SrcArg.str s) => s
  | some (SrcArg.path p) => p

/-- Python truthiness of the `owner` argument (`if root or owner:` and
`if owner:`). -/
def ownerTruthy : Option String → Bool
  | none => false
  | some s => !(s == "")

/-- The tail of `Block.copy` after the `src`/`content` branch: `how0` is the
`how` dict so far (`dest`, `backup`, and `src` or `content`). Adds the
optional `mode`, creates the task dict, adds `become`/`become_user` when
`root or owner` is truthy, and records `owner` in `how`. The source mutates
`how` after the task dict is created (`how["owner"] = owner`), but since the
task holds a reference to `how`, the serialized task contains the fully
built `how`; the pure embedding builds `how` completely first. -/
def copyBuild (title' : String) (how0 : List (String × Val)) (rootFlag : Bool)
    (owner : Option String) (mode : Option Int) : List (String × Val) :=
  let how : List (String × Val) :=
    how0
      ++ (match mode with
          | some m => [("mode", Val.int m)]
          | none => [])
      ++ (if ownerTruthy owner then
            [("owner", Val.str (owner.getD ""))]
          else [])
  [("name", Val.str title'), ("copy", Val.dict how)]
    ++ (if rootFlag || ownerTruthy owner then
          [("become", Val.bool true), ("become_user", Val.str "root")]
        else [])

/-- `Block.copy(...)`: builds the descriptor appended by the transfer-file
constructor, or `none` when one of its `assert`s fails (both of `src` and
`content` given, or neither). `root` is the block's `_root`. A `Path`-typed
`src` is recorded as `str(src)`; a string `src` as `str(self._root / src)`. -/
def copyTask (root : String) (title : Option String) (src : Option SrcArg)
    (content : Option String) (dest : String) (rootFlag : Bool)
    (owner : Option String) (mode : Option Int) :
    Option (List (String × Val)) :=
  let title' : String :=
    match title with
    | some t => t
    | none =>
        if srcTruthy src then "Upload " ++ basename (srcRaw src) ++ " to " ++ dest
        else "Create " ++ dest
  let base : List (String × Val) := [("dest", Val.str dest), ("backup", Val.bool true)]
  match src, content with
  | some _, some _ => none
  | some (SrcArg.path p), none =>
      some (copyBuild title' (base ++ [("src", Val.str p)]) rootFlag owner mode)
  | some (SrcArg.str s), none =>
      some (copyBuild title' (base ++ [("src", Val.str (pathJoin root s))]) rootFlag owner mode)
  | none, some c =>
      some (copyBuild title' (base ++ [("content", Val.str c)]) rootFlag owner mode)
  | none, none => none

/-- The `src` recorded inside the `copy` detail of a built descriptor. -/
def copySrcOf (d : Option (List (String × Val))) : Option Val :=
  match d with
  | none => none
  | some t =>
      match lookup t "copy" with
      | some (Val.dict how) => lookup how "src"
      | _ => none

/-- The `owner` recorded inside the `copy` detail of a built descriptor. -/
def copyOwnerOf (d : Option (List (String × Val))) : Option Val :=
  match d with
  | none => none
  | some t =>
      match lookup t "copy" with
      | some (Val.dict how) => lookup how "owner"
      | _ => none

/-- `Block.copy` at the level of the block's task list: on success the built
descriptor is appended to `self._tasks`. -/
def copyAppend (ts : List Entry) (root : String) (title : Option String)
    (src : Option SrcArg) (content : Option String) (dest : String)
    (rootFlag : Bool) (owner : Option String) (mode : Option Int) :
    Option (List Entry) :=
  (copyTask root title src content dest rootFlag owner mode).map
    (fun d => ts ++ [Entry.task d])

/-- The state of a `Play`: its document name, bound root and task list. -/
structure Play : Type where
  name : String
  root : String
  tasks : List Entry

/-- `str.endswith`, as a suffix test on the character sequences. -/
def strEndsWith (s t : String) : Bool := t.data.isSuffixOf s.data

/-- `Play.__init__`: asserts `'/' not in name` (a single-character `in` on a
string is character membership) and `name.endswith(".yml")`; on success the
name and root are recorded and the task list starts empty. `none` models a
failing `assert`. -/
def playInit (name root : String) : Option Play :=
  if '/' ∈ name.data then none
  else if strEndsWith name ".yml" then some ⟨name, root, []⟩
  else none

/-- The path the document is written to: either inside the temporary
directory (`Path(tmpdir) / self._name`) or the caller-supplied `saveas`. -/
inductive DocPath : Type where
  | tmp : String → String → DocPath
  | explicit : String → DocPath
deriving DecidableEq

/-- `str` of a document path (`str(saveas)` in the command line). -/
def DocPath.render : DocPath → String
  | DocPath.tmp d n => d ++ "/" ++ n
  | DocPath.explicit p => p

/-- Observable events of `Play.run_play`: temporary-directory creation and
scoped removal, the document write, the subprocess invocation (argument
vector and working directory), a failed `assert`, and the
`CalledProcessError` that `run(..., check=True)` raises on a non-zero
exit status. -/
inductive Ev : Type where
  | mkTmpdir : String → Ev
  | rmTmpdir : String → Ev
  | writeFile : DocPath → Ev
  | invoke : List String → String → Ev
  | assertFail : Ev
  | procFail : Nat → Ev
deriving DecidableEq

/-- `Play._run_play(hosts, saveas, verbosity)` as its event trace, given the
exit code the subprocess would return. It asserts a non-empty task list,
writes the document, and runs
`['ansible-playbook', str(saveas)] + ['--verbose'] * verbosity` with
`cwd=self._root` and `check=True`. -/
def runPlayInner (p : Play) (saveas : DocPath) (verbosity : Nat)
    (exitCode : Nat) : List Ev :=
  if p.tasks.length = 0 then [Ev.assertFail]
  else
    let cmd : List String :=
      ["ansible-playbook", saveas.render] ++ List.replicate verbosity "--verbose"
    [Ev.writeFile saveas, Ev.invoke cmd p.root]
      ++ (if exitCode = 0 then [] else [Ev.procFail exitCode])

/-- `Play.run_play(hosts, saveas, verbosity)`: with `saveas=None` the inner
run happens inside `with TemporaryDirectory() as tmpdir:`, whose scoped
cleanup removes the directory whether the body returned or raised; with a
caller-supplied path the inner run happens directly. `tmpdir` is the fresh
directory name the OS would hand out. -/
def run_play (p : Play) (saveas : Option String) (tmpdir : String)
    (verbosity : Nat) (exitCode : Nat) : List Ev :=
  match saveas with
  | none =>
      Ev.mkTmpdir tmpdir
        :: runPlayInner p (DocPath.tmp tmpdir p.name) verbosity exitCode
        ++ [Ev.rmTmpdir tmpdir]
  | some s => runPlayInner p (DocPath.explicit s) verbosity exitCode

/-- The filesystem footprint relevant to the run: which temporary
directories and which written document files exist. -/
structure FS : Type where
  dirs : List String
  files : List DocPath
deriving DecidableEq

/-- Effect of one event on the filesystem: removing a temporary directory
also removes every file written inside it. -/
def applyEv (fs : FS) : Ev → FS
  | Ev.mkTmpdir d => { fs with dirs := fs.dirs ++ [d] }
  | Ev.rmTmpdir d =>
      { dirs := fs.dirs.filter (fun x => x != d),
        files := fs.files.filter (fun f =>
          match f with
          | DocPath.tmp d' _ => d' != d
          | DocPath.explicit _ => true) }
  | Ev.writeFile f => { fs with files := fs.files ++ [f] }
  | Ev.invoke _ _ => fs
  | Ev.assertFail => fs
  | Ev.procFail _ => fs

/-- The filesystem left behind by a trace, starting from nothing. -/
def finalFS (evs : List Ev) : FS := evs.foldl applyEv ⟨[], []⟩

/-! Helper lemmas. -/

theorem get_tasks_append (ts us : List Entry) :
    get_tasks (ts ++ us) = get_tasks ts ++ get_tasks us := by
  induction ts with
  | nil => simp [get_tasks]
  | cons e rest ih => simp [get_tasks, ih]

theorem applyOps_eq (ops : List Op) :
    ∀ ts : List Entry, applyOps ts ops = ts ++ ops.map opEntry := by
  induction ops with
  | nil => intro ts; simp [applyOps]
  | cons op rest ih =>
      intro ts
      simp [applyOps, ih, List.append_assoc]

theorem modifyIdx_append (ts : List Entry) (b : Entry) (f : Entry → Entry) :
    modifyIdx (ts ++ [b]) ts.length f = ts ++ [f b] := by
  induction ts with
  | nil => simp [modifyIdx]
  | cons e rest ih => simp [modifyIdx, ih]

theorem appendEntryAt_last (ts : List Entry) (n : String) (cs : List Entry)
    (e : Entry) :
    appendEntryAt (ts ++ [Entry.block n cs]) ts.length e
      = ts ++ [Entry.block n (cs ++ [e])] := by
  simp [appendEntryAt, modifyIdx_append]

theorem appendAllAt_last (ts : List Entry) (n : String) (es : List Entry) :
    ∀ cs : List Entry,
      appendAllAt (ts ++ [Entry.block n cs]) ts.length es
        = ts ++ [Entry.block n (cs ++ es)] := by
  induction es with
  | nil => intro cs; simp [appendAllAt]
  | cons e rest ih =>
      intro cs
      have h1 : appendAllAt (ts ++ [Entry.block n cs]) ts.length (e :: rest)
          = appendAllAt (appendEntryAt (ts ++ [Entry.block n cs]) ts.length e)
              ts.length rest := rfl
      rw [h1, appendEntryAt_last, ih]
      simp

/-! Claim theorems. -/

/-- C1: for every sequence of builder calls on a single block, `get_tasks`
yields exactly one entry per appended operation, in the exact order the
operations were appended (the result is the pointwise image of the call
sequence, so nothing is reordered, dropped or duplicated), and a plain task
descriptor `d` is yielded unchanged (`opFlat (Op.appendTask d) = Val.dict d`
by definition). -/
theorem get_tasks_preserves_call_order (ops : List Op) :
    get_tasks (applyOps [] ops) = ops.map opFlat
      ∧ ∀ d : List (String × Val), opFlat (Op.appendTask d) = Val.dict d := by
  refine ⟨?_, fun d => rfl⟩
  rw [applyOps_eq, List.nil_append]
  induction ops with
  | nil => rfl
  | cons op rest ih =>
      simp only [List.map_cons, get_tasks, ih]
      cases op <;> simp [opEntry, opFlat, flattenEntry, get_tasks]

/-- C2: `get_block` appends the new child container to the parent's
operation sequence at open time and returns it (here: the child sits at
index `ts.length` of the extended list). For any sequence of entries later
appended through the child reference, the parent's previously recorded
operations (the prefix of length `ts.length`) are unchanged, and flattening
the parent yields the old flattening plus a single mapping carrying the
child's name and the child's own flattening at that time. -/
theorem get_block_child_independent (ts : List Entry) (n : String)
    (es : List Entry) :
    (get_block ts n).1 = ts ++ [Entry.block n []]
      ∧ (appendAllAt (get_block ts n).1 (get_block ts n).2 es).take ts.length = ts
      ∧ get_tasks (appendAllAt (get_block ts n).1 (get_block ts n).2 es)
          = get_tasks ts
            ++ [Val.dict [("name", Val.str n), ("block", Val.list (get_tasks es))]] := by
  have h : appendAllAt (get_block ts n).1 (get_block ts n).2 es
      = ts ++ [Entry.block n es] := by
    have h2 : appendAllAt (ts ++ [Entry.block n []]) ts.length es
        = ts ++ [Entry.block n ([] ++ es)] := appendAllAt_last ts n es []
    simpa [get_block] using h2
  refine ⟨rfl, ?_, ?_⟩
  · rw [h]
    exact List.take_left ts [Entry.block n es]
  · rw [h, get_tasks_append]
    simp [get_tasks, flattenEntry]

/-- C3: `Block.copy` fails (a failing `assert`, modelled as `none`) when
both a source and inline content are supplied, and when neither is
supplied; when exactly one of them is supplied it succeeds and appends
exactly one descriptor to the block's task list. -/
theorem copy_mutual_exclusion (ts : List Entry) (root : String)
    (title : Option String) (src : Option SrcArg) (content : Option String)
    (dest : String) (rootFlag : Bool) (owner : Option String)
    (mode : Option Int) :
    (src.isSome = true → content.isSome = true →
        copyAppend ts root title src content dest rootFlag owner mode = none)
      ∧ (src = none → content = none →
        copyAppend ts root title src content dest rootFlag owner mode = none)
      ∧ (src.isSome = true → content = none →
        ∃ d, copyAppend ts root title src content dest rootFlag owner mode
          = some (ts ++ [Entry.task d]))
      ∧ (src = none → content.isSome = true →
        ∃ d, copyAppend ts root title src content dest rootFlag owner mode
          = some (ts ++ [Entry.task d])) := by
  refine ⟨?_, ?_, ?_, ?_⟩ <;> intro h1 h2
  · rcases src with _ | s <;> rcases content with _ | c
    · exact absurd h1 (by simp)
    · exact absurd h1 (by simp)
    · exact absurd h2 (by simp)
    · cases s <;> rfl
  · subst h1; subst h2; rfl
  · subst h2
    rcases src with _ | s
    · exact absurd h1 (by simp)
    · cases s <;> exact ⟨_, rfl⟩
  · subst h1
    rcases content with _ | c
    · exact absurd h2 (by simp)
    · exact ⟨_, rfl⟩

/-- C3 witness: at concrete inputs, both-given and neither-given fail, and
a source-only call succeeds and appends. -/
theorem copy_mutual_exclusion_w :
    copyAppend [] "/r" none (some (SrcArg.str "a")) (some "c") "d" false none none = none
      ∧ copyAppend [] "/r" none none none "d" false none none = none
      ∧ (copyAppend [] "/r" none (some (SrcArg.str "a")) none "d" false none none).isSome
          = true := by
  refine ⟨?_, ?_, ?_⟩
  · exact (copy_mutual_exclusion [] "/r" none (some (SrcArg.str "a")) (some "c")
      "d" false none none).1 rfl rfl
  · exact (copy_mutual_exclusion [] "/r" none none none
      "d" false none none).2.1 rfl rfl
  · obtain ⟨d, hd⟩ := (copy_mutual_exclusion [] "/r" none (some (SrcArg.str "a")) none
      "d" false none none).2.2.1 rfl rfl
    rw [hd]
    rfl

/-- C4: the descriptor built by `Block.command` carries the
privilege-escalation flag and the effective-identity override exactly when
`become` is explicitly supplied; with `become` absent neither field appears. -/
theorem command_become_iff_supplied (title : String) (cmd : List String)
    (chdir : Option String) (b : String) :
    lookup (command title cmd chdir (some b)) "become" = some (Val.bool true)
      ∧ lookup (command title cmd chdir (some b)) "become_user" = some (Val.str b)
      ∧ lookup (command title cmd chdir none) "become" = none
      ∧ lookup (command title cmd chdir none) "become_user" = none :=
  ⟨rfl, rfl, rfl, rfl⟩

/-- C5: running a `Play` whose own task list is empty fails the
`assert len(self._tasks)` build step: the trace contains the failing
assertion and no document write and no subprocess invocation, whatever the
save path, verbosity and exit code would have been. -/
theorem empty_play_fails_build (p : Play) (saveas : Option String)
    (tmpdir : String) (v e : Nat) (h : p.tasks = []) :
    Ev.assertFail ∈ run_play p saveas tmpdir v e
      ∧ (∀ c w, Ev.invoke c w ∉ run_play p saveas tmpdir v e)
      ∧ (∀ f, Ev.writeFile f ∉ run_play p saveas tmpdir v e) := by
  cases saveas <;> simp [run_play, runPlayInner, h]

/-- C5 witness: a concrete empty play hits the assertion and never invokes
the engine. -/
theorem empty_play_fails_build_w :
    Ev.assertFail ∈ run_play ⟨"a.yml", "/r", []⟩ none "T" 0 0
      ∧ Ev.invoke ["ansible-playbook", "T/a.yml"] "/r"
          ∉ run_play ⟨"a.yml", "/r", []⟩ none "T" 0 0
      ∧ Ev.writeFile (DocPath.tmp "T" "a.yml")
          ∉ run_play ⟨"a.yml", "/r", []⟩ none "T" 0 0 := by
  have h := empty_play_fails_build ⟨"a.yml", "/r", []⟩ none "T" 0 0 rfl
  exact ⟨h.1, h.2.1 _ _, h.2.2 _⟩

/-- C6: with no caller-supplied save path a fresh temporary directory is
created for the run and the final filesystem is empty again — the directory
and the document written inside it are removed — for every task list and
exit code (covering build failure, subprocess failure and success). With a
caller-supplied save path no temporary directory is ever created and the
written document is still present afterwards (when the build step ran at
all, i.e. the task list was non-empty). -/
theorem tmpdir_scoped_cleanup (p : Play) (tmpdir s : String) (v e : Nat) :
    Ev.mkTmpdir tmpdir ∈ run_play p none tmpdir v e
      ∧ finalFS (run_play p none tmpdir v e) = ⟨[], []⟩
      ∧ (∀ d, Ev.mkTmpdir d ∉ run_play p (some s) tmpdir v e)
      ∧ (finalFS (run_play p (some s) tmpdir v e)).dirs = []
      ∧ (finalFS (run_play p (some s) tmpdir v e)).files
          = (if p.tasks.length = 0 then [] else [DocPath.explicit s]) := by
  by_cases ht : p.tasks.length = 0 <;> by_cases he : e = 0 <;>
    simp [run_play, runPlayInner, finalFS, applyEv, ht, he, List.filter]

/-- C7: for a play with at least one task, the run trace is exactly: write
the document, invoke the engine with the command line
`["ansible-playbook", path] ++ verbosity copies of "--verbose"` and working
directory the bound root, and surface a `CalledProcessError` exactly when
the exit status is non-zero — both with a caller-supplied path and inside
the temporary-directory scope. -/
theorem run_invocation_shape (p : Play) (s tmpdir : String) (v e : Nat)
    (h : p.tasks ≠ []) :
    run_play p (some s) tmpdir v e
      = [Ev.writeFile (DocPath.explicit s),
          Ev.invoke (["ansible-playbook", s] ++ List.replicate v "--verbose") p.root]
        ++ (if e = 0 then [] else [Ev.procFail e])
      ∧ run_play p none tmpdir v e
        = [Ev.mkTmpdir tmpdir, Ev.writeFile (DocPath.tmp tmpdir p.name),
            Ev.invoke (["ansible-playbook", tmpdir ++ "/" ++ p.name]
              ++ List.replicate v "--verbose") p.root]
          ++ (if e = 0 then [] else [Ev.procFail e]) ++ [Ev.rmTmpdir tmpdir] := by
  have ht : ¬ p.tasks.length = 0 := by simpa using h
  constructor <;> by_cases he : e = 0 <;>
    simp [run_play, runPlayInner, DocPath.render, ht, he]

/-- C7 witness: a concrete one-task play, verbosity 1, exit status 2. -/
theorem run_invocation_shape_w :
    run_play ⟨"a.yml", "/r", [Entry.task []]⟩ (some "out") "T" 1 2
      = [Ev.writeFile (DocPath.explicit "out"),
          Ev.invoke ["ansible-playbook", "out", "--verbose"] "/r",
          Ev.procFail 2] := by
  have h := (run_invocation_shape ⟨"a.yml", "/r", [Entry.task []]⟩ "out" "T" 1 2
    (by simp)).1
  rw [h]
  rfl

/-- C8: `Play.__init__` fails when the name contains the path separator
`/`, fails when the name does not end in `.yml`, and succeeds — recording
the name (and root, with an empty task list) — whenever both conditions
hold (any such name is non-empty, since it carries the extension). -/
theorem play_init_name_rules (name root : String) :
    ('/' ∈ name.data → playInit name root = none)
      ∧ (strEndsWith name ".yml" = false → playInit name root = none)
      ∧ ('/' ∉ name.data → strEndsWith name ".yml" = true →
          playInit name root = some ⟨name, root, []⟩) := by
  refine ⟨?_, ?_, ?_⟩
  · intro h
    simp [playInit, h]
  · intro h
    by_cases hm : '/' ∈ name.data <;> simp [playInit, hm, h]
  · intro h1 h2
    simp [playInit, h1, h2]

/-- C8 witness: a valid name is accepted and recorded; the clauses are
exercised at concrete names. -/
theorem play_init_name_rules_w :
    playInit "a.yml" "/r" = some ⟨"a.yml", "/r", []⟩
      ∧ playInit "a/b.yml" "/r" = none
      ∧ playInit "a.txt" "/r" = none := by
  refine ⟨?_, ?_, ?_⟩
  · exact (play_init_name_rules "a.yml" "/r").2.2 (by decide) (by decide)
  · exact (play_init_name_rules "a/b.yml" "/r").1 (by decide)
  · exact (play_init_name_rules "a.txt" "/r").2.1 (by decide)

/-- C9 counterexample: a relative source path supplied as a `Path` object
is recorded verbatim, not resolved against the bound root: with root `/r`
and `src=Path("foo")` the recorded source is `"foo"`, while resolving
against the root would give `"/r/foo"`. -/
theorem copy_relative_src_cx :
    copySrcOf (copyTask "/r" none (some (SrcArg.path "foo")) none "d" false none none)
        = some (Val.str "foo")
      ∧ pathJoin "/r" "foo" = "/r/foo"
      ∧ copySrcOf (copyTask "/r" none (some (SrcArg.path "foo")) none "d" false none none)
          ≠ some (Val.str (pathJoin "/r" "foo")) := by
  refine ⟨rfl, rfl, ?_⟩
  intro h
  rw [show copySrcOf (copyTask "/r" none (some (SrcArg.path "foo")) none "d" false none none)
      = some (Val.str "foo") from rfl] at h
  rw [show pathJoin "/r" "foo" = "/r/foo" from rfl] at h
  have h2 := Option.some.inj h
  have h3 : "foo" = "/r/foo" := Val.str.inj h2
  exact absurd h3 (by decide)

/-- C9 amended: for every call to `Block.copy` whose source is a non-empty
relative path supplied as a plain string, the recorded source is that path
resolved against the block's bound root (`root ++ "/" ++ s`); a source
supplied as a `Path` object is recorded verbatim. -/
theorem copy_str_src_resolved (root s : String) (title : Option String)
    (dest : String) (rootFlag : Bool) (owner : Option String)
    (mode : Option Int) (p : String)
    (h1 : s.data ≠ []) (h2 : s.data.head? ≠ some '/') :
    copySrcOf (copyTask root title (some (SrcArg.str s)) none dest rootFlag owner mode)
        = some (Val.str (root ++ "/" ++ s))
      ∧ copySrcOf (copyTask root title (some (SrcArg.path p)) none dest rootFlag owner mode)
          = some (Val.str p) := by
  constructor
  · have hp : pathJoin root s = root ++ "/" ++ s := by
      simp [pathJoin, h1, h2]
    calc copySrcOf (copyTask root title (some (SrcArg.str s)) none dest rootFlag owner mode)
        = some (Val.str (pathJoin root s)) := rfl
      _ = some (Val.str (root ++ "/" ++ s)) := by rw [hp]
  · rfl

/-- C9 amended witness: concrete relative string source resolved against
the root, concrete `Path` source recorded verbatim. -/
theorem copy_str_src_resolved_w :
    copySrcOf (copyTask "/r" none (some (SrcArg.str "foo")) none "d" false none none)
        = some (Val.str "/r/foo")
      ∧ copySrcOf (copyTask "/r" none (some (SrcArg.path "bar")) none "d" false none none)
          = some (Val.str "bar") :=
  copy_str_src_resolved "/r" "foo" none "d" false none none "bar"
    (by decide) (by decide)

theorem find?_none_append {α : Type} (p : α → Bool) (l₁ l₂ : List α)
    (h : l₁.find? p = none) : (l₁ ++ l₂).find? p = l₂.find? p := by
  induction l₁ with
  | nil => rfl
  | cons a rest ih =>
      rw [List.find?_cons] at h
      rw [List.cons_append, List.find?_cons]
      cases hp : p a with
      | true =>
          simp only [hp] at h
          exact Option.noConfusion h
      | false =>
          simp only [hp] at h
          exact ih h

theorem copyBuild_become (t : String) (how0 : List (String × Val)) (rf : Bool)
    (ow : Option String) (mo : Option Int)
    (hb : (rf || ownerTruthy ow) = true) :
    lookup (copyBuild t how0 rf ow mo) "become" = some (Val.bool true)
      ∧ lookup (copyBuild t how0 rf ow mo) "become_user" = some (Val.str "root") := by
  constructor <;> simp [copyBuild, lookup, List.find?, hb]

theorem copyBuild_owner (t : String) (how0 : List (String × Val)) (rf : Bool)
    (u : String) (mo : Option Int)
    (h0 : how0.find? (fun q => q.1 == "owner") = none)
    (hu : (u == "") = false) :
    copyOwnerOf (some (copyBuild t how0 rf (some u) mo)) = some (Val.str u) := by
  have htr : ownerTruthy (some u) = true := by simp [ownerTruthy, hu]
  have step1 : copyOwnerOf (some (copyBuild t how0 rf (some u) mo))
      = lookup (how0
          ++ (match mo with
              | some m => [("mode", Val.int m)]
              | none => [])
          ++ (if ownerTruthy (some u) then
                [("owner", Val.str ((some u).getD ""))]
              else []))
        "owner" := rfl
  rw [step1, htr, if_pos rfl]
  cases mo with
  | none =>
      have hmid : (how0 ++ ([] : List (String × Val))).find?
          (fun q => q.1 == "owner") = none := by
        rw [List.append_nil]
        exact h0
      unfold lookup
      rw [find?_none_append _ _ _ hmid]
      rfl
  | some m =>
      have hmid : (how0 ++ [(("mode" : String), Val.int m)]).find?
          (fun q => q.1 == "owner") = none := by
        rw [find?_none_append _ _ _ h0]
        rfl
      unfold lookup
      rw [find?_none_append _ _ _ hmid]
      rfl

/-- C10: whenever `Block.copy` is given an owning identity or asked for
root ownership, the built descriptor escalates with the fixed effective
identity `"root"` — even when the owning identity is a different user —
and the owning identity itself is recorded separately as the `owner` field
of the `copy` detail. -/
theorem copy_become_user_always_root (root : String) (title : Option String)
    (src : Option SrcArg) (content : Option String) (dest : String)
    (rootFlag : Bool) (owner : Option String) (mode : Option Int)
    (d : List (String × Val))
    (hd : copyTask root title src content dest rootFlag owner mode = some d)
    (hb : rootFlag = true ∨ ownerTruthy owner = true) :
    lookup d "become" = some (Val.bool true)
      ∧ lookup d "become_user" = some (Val.str "root")
      ∧ (∀ u, owner = some u → (u == "") = false →
          copyOwnerOf (some d) = some (Val.str u)) := by
  have hb' : (rootFlag || ownerTruthy owner) = true := by
    rcases hb with h | h <;> simp [h]
  have key : ∃ t0 how0, d = copyBuild t0 how0 rootFlag owner mode
      ∧ how0.find? (fun q => q.1 == "owner") = none := by
    rcases src with _ | s <;> rcases content with _ | c
    · exact absurd hd (by simp [copyTask])
    · simp only [copyTask] at hd
      exact ⟨_, _, (Option.some.inj hd).symm, rfl⟩
    · cases s with
      | path p =>
          simp only [copyTask] at hd
          exact ⟨_, _, (Option.some.inj hd).symm, rfl⟩
      | str s =>
          simp only [copyTask] at hd
          exact ⟨_, _, (Option.some.inj hd).symm, rfl⟩
    · cases s <;> exact absurd hd (by simp [copyTask])
  obtain ⟨t0, how0, hdeq, h0⟩ := key
  subst hdeq
  refine ⟨(copyBuild_become t0 how0 rootFlag owner mode hb').1,
    (copyBuild_become t0 how0 rootFlag owner mode hb').2, ?_⟩
  intro u hu hne
  subst hu
  exact copyBuild_owner t0 how0 rootFlag u mode h0 hne

/-- C10 witness: `owner="bob"` escalates as `"root"` while recording
`owner: bob` in the detail. -/
theorem copy_become_user_always_root_w :
    lookup [("name", Val.str "t"),
        ("copy", Val.dict [("dest", Val.str "d"), ("backup", Val.bool true),
          ("content", Val.str "c"), ("owner", Val.str "bob")]),
        ("become", Val.bool true), ("become_user", Val.str "root")]
        "become_user" = some (Val.str "root")
      ∧ copyOwnerOf (some [("name", Val.str "t"),
          ("copy", Val.dict [("dest", Val.str "d"), ("backup", Val.bool true),
            ("content", Val.str "c"), ("owner", Val.str "bob")]),
          ("become", Val.bool true), ("become_user", Val.str "root")])
          = some (Val.str "bob") := by
  have h := copy_become_user_always_root "/r" (some "t") none (some "c") "d"
    false (some "bob") none
    [("name", Val.str "t"),
      ("copy", Val.dict [("dest", Val.str "d"), ("backup", Val.bool true),
        ("content", Val.str "c"), ("owner", Val.str "bob")]),
      ("become", Val.bool true), ("become_user", Val.str "root")]
    rfl (Or.inr rfl)
  exact ⟨h.2.1, h.2.2 "bob" rfl rfl⟩

end AnsibleWrapper
